import Mathlib

/-!
Verification development for the FinanceQA failure-labeling repository.

The repository has two source files:
* `src/labeling/label_failures.py` — samples FinanceQA records, queries a
  target model for answers, queries a judge model for a failure label, and
  accumulates one labeled record per sample.
* `src/app.py` — a viewer that loads the labeled table, computes summary
  metrics, and pages through records with a clamped index.

The definitions below are a shallow embedding of those two files.  The
outcomes of the two external model calls are modelled as explicit data
(since the external services are nondeterministic collaborators), and all
code that the repository itself contains — the branch structure of
`label_failure`, the per-row loop in `main`, the coercion of out-of-set
labels, the sampler arithmetic, the viewer metrics and the index
clamping — is translated directly.
-/

namespace FinanceQA

/-- The closed failure-label set `ERROR_LABELS` from `label_failures.py`. -/
def ERROR_LABELS : List String :=
  ["CORRECT",
   "ARITHMETIC_ERROR",
   "ACCOUNTING_CONVENTION_ERROR",
   "MISSING_OR_WRONG_ASSUMPTION",
   "WRONG_METRIC_OR_CONCEPT",
   "CONTEXT_MISUSE_OR_HALLUCINATION",
   "NON_ANSWER_OR_GENERIC"]

/-- One sampled FinanceQA input row (the columns read by `main`). -/
structure SampleRow where
  question : String
  answer : String
  context : String
  question_type : String
  company : String
  file_link : String
  file_name : String
  deriving DecidableEq

/-- One labeled output record, as assembled in `main` (lines 214-225). -/
structure LabeledRecord where
  question : String
  answer : String
  context : String
  question_type : String
  company : String
  file_link : String
  file_name : String
  model_answer : String
  error_label : String
  error_rationale : String
  deriving DecidableEq

/-- Outcome of the target-model call `call_target_model`: either it returns
an answer string or it raises an exception whose string form is `msg`. -/
inductive TargetOutcome where
  | ok (answer : String)
  | raises (msg : String)
  deriving DecidableEq

/-- Outcome of the judge-model call inside `label_failure` (the `try`
block, lines 148-179): the call raises a generic exception, raises a JSON
decode error, returns empty content, or returns a parsed object whose
`label` and `rationale` keys may each be absent. -/
inductive JudgeOutcome where
  | raises (msg : String)
  | jsonError (msg : String)
  | noContent
  | parsed (lab : Option String) (rat : Option String)
  deriving DecidableEq

/-- Outcome of the `label_failure(...)` call as seen from `main`
(lines 208-212): either `label_failure` runs to completion on a judge
outcome, or the call itself raises and is caught by the outer handler. -/
inductive JudgeCall where
  | completes (o : JudgeOutcome)
  | raises (msg : String)
  deriving DecidableEq

/-- The `try`/`except` body of `label_failure` (lines 148-179): the label
and rationale before the final membership check. -/
def rawJudge : JudgeOutcome → String × String
  | .raises msg => ("UNKNOWN", msg)
  | .jsonError msg => ("UNKNOWN", "JSON decode error: " ++ msg)
  | .noContent => ("UNKNOWN", "No content returned in JSON")
  | .parsed lab rat => (lab.getD "UNKNOWN", rat.getD "")

/-- The final validation in `label_failure` (lines 181-183): a label not in
`ERROR_LABELS` is stored as UNKNOWN; the rationale is kept. -/
def coerceLabel (p : String × String) : String × String :=
  if p.1 ∈ ERROR_LABELS then p else ("UNKNOWN", p.2)

/-- `label_failure` (lines 115-185): run the judge call and validate the
returned label against the closed set. -/
def label_failure (o : JudgeOutcome) : String × String :=
  coerceLabel (rawJudge o)

/-- The model answer stored by `main` (lines 200-205): the target answer,
or the empty string when the target call raises. -/
def targetAnswer : TargetOutcome → String
  | .ok a => a
  | .raises _ => ""

/-- The label/rationale pair stored by `main` (lines 207-212): the result
of `label_failure`, or UNKNOWN with the exception text when the call
raises. -/
def judgeResult : JudgeCall → String × String
  | .completes o => label_failure o
  | .raises msg => ("UNKNOWN", msg)

/-- One iteration of the loop in `main` (lines 195-227): compose the
labeled record for one sample from the two call outcomes. -/
def processRow (t : TargetOutcome) (j : JudgeCall) (row : SampleRow) : LabeledRecord :=
  { question := row.question
    answer := row.answer
    context := row.context
    question_type := row.question_type
    company := row.company
    file_link := row.file_link
    file_name := row.file_name
    model_answer := targetAnswer t
    error_label := (judgeResult j).1
    error_rationale := (judgeResult j).2 }

/-- The accumulation loop of `main` (lines 193-227): `records = []` then
`records.append(record)` once per sampled row.  Each sample is paired with
the outcomes of its two external calls. -/
def mainLoop : List (SampleRow × TargetOutcome × JudgeCall) → List LabeledRecord → List LabeledRecord
  | [], acc => acc
  | (row, t, j) :: rest, acc => mainLoop rest (acc ++ [processRow t j row])

/-- The full batch of `main`: loop over all samples starting from the
empty accumulator. -/
def runPipeline (samples : List (SampleRow × TargetOutcome × JudgeCall)) : List LabeledRecord :=
  mainLoop samples []

/-- The question categories kept by `load_financeqa_sample` (line 79). -/
def allowedTypes : List String := ["basic", "assumption"]

/-- A linear congruential step, driving the seeded shuffle model. -/
def lcg (s : Nat) : Nat := (1103515245 * s + 12345) % 2147483648

/-- Fuel-indexed seeded shuffle: rotate the remaining list by a
seed-derived amount, emit the new head, recurse on the tail with the next
seed.  Models the pandas seeded row sampler `DataFrame.sample`, which on
the Python side draws a seed-determined permutation of the rows; the exact
Mersenne-Twister stream is not reproduced, but the model is, like the
library call, a deterministic permutation of its input. -/
def shuffleGo {α : Type} : Nat → Nat → List α → List α
  | 0, _, _ => []
  | _ + 1, _, [] => []
  | fuel + 1, s, a :: t =>
    match (a :: t).rotate (s % (a :: t).length) with
    | [] => []
    | b :: u => b :: shuffleGo fuel (lcg s) u

/-- Seeded shuffle of a whole list (`df.sample(frac=1.0, random_state=s)`). -/
def seededShuffle {α : Type} (s : Nat) (l : List α) : List α :=
  shuffleGo l.length s l

/-- The source collection handed to the sampler: the FinanceQA test split,
which may or may not expose a `question_type` column. -/
structure SourceDF where
  hasQuestionType : Bool
  rows : List SampleRow

/-- The dataframe after the category mask in `load_financeqa_sample`
(lines 77-80): filter to basic/assumption questions when the
`question_type` column is present, otherwise keep every row. -/
def filteredRows (ds : SourceDF) : List SampleRow :=
  if ds.hasQuestionType then
    ds.rows.filter (fun r => allowedTypes.contains r.question_type)
  else
    ds.rows

/-- `load_financeqa_sample` (lines 73-86): filter by category, then either
return the whole filtered set shuffled (when it has at most `n` rows) or a
seed-determined selection of `n` rows without replacement. -/
def load_financeqa_sample (n : Nat) (ds : SourceDF) : List SampleRow :=
  let df := filteredRows ds
  if df.length ≤ n then seededShuffle 42 df
  else (seededShuffle 42 df).take n

/-- Viewer: occurrences of one label value in the `error_label` column
(`df["error_label"].value_counts()` looked up at one label). -/
def countLabel (labels : List String) (l : String) : Nat :=
  labels.count l

/-- Viewer: the accuracy metric of `compute_metrics` (lines 191-193):
`correct / total if total else 0`. -/
def accuracy (labels : List String) : ℚ :=
  if labels.length = 0 then 0
  else (countLabel labels "CORRECT" : ℚ) / (labels.length : ℚ)

/-- Scan of candidate labels keeping the one with the strictly largest
count, earlier candidates winning ties — the `idxmax` of the non-CORRECT
slice of the value counts. -/
def pickMost (labels : List String) : String → List String → String
  | best, [] => best
  | best, c :: cs =>
    if countLabel labels best < countLabel labels c then pickMost labels c cs
    else pickMost labels best cs

/-- Viewer: the most-common-error metric of `compute_metrics`
(lines 195-197): drop CORRECT from the value counts, take the label with
the maximal count, and fall back to CORRECT when nothing remains. -/
def most_common (labels : List String) : String :=
  match (labels.dedup).filter (fun l => decide (l ≠ "CORRECT")) with
  | [] => "CORRECT"
  | c :: cs => pickMost labels c cs

/-- `compute_metrics` (lines 190-199): total row count, accuracy, the
per-label counts, and the most common non-CORRECT label. -/
def compute_metrics (labels : List String) : Nat × ℚ × (String → Nat) × String :=
  (labels.length, accuracy labels, countLabel labels, most_common labels)

/-- A navigation click in the step-through viewer: the Previous or the
Next button. -/
inductive NavAction where
  | prev
  | next
  deriving DecidableEq

/-- One navigation interaction of `main` in `app.py` (lines 337-345) on a
table of `r` rows: the Previous button is disabled at index 0 and
otherwise decrements, the Next button is disabled at index `r - 1` and
otherwise increments.  A disabled button cannot change the index. -/
def navStep (r : Nat) (idx : Int) : NavAction → Int
  | .prev => if idx ≤ 0 then idx else idx - 1
  | .next => if (r : Int) - 1 ≤ idx then idx else idx + 1

/-- A whole navigation session: `st.session_state.deep_index` starts at 0
(line 331) and is mutated only by the two buttons. -/
def navRun (r : Nat) (acts : List NavAction) : Int :=
  acts.foldl (navStep r) 0

/-- A concrete sampled row, used to instantiate theorems. -/
def sampleRow1 : SampleRow :=
  ⟨"What is the revenue?", "100", "ctx", "basic", "ACME", "link", "file"⟩

/-! ### Helper lemmas -/

/-- Whatever pair the judge produced, the validated label is UNKNOWN or a
member of the closed set. -/
theorem coerceLabel_fst_mem (p : String × String) :
    (coerceLabel p).1 ∈ "UNKNOWN" :: ERROR_LABELS := by
  unfold coerceLabel
  split
  next h => exact List.mem_cons_of_mem _ h
  next => exact List.mem_cons_self _ _

/-- The accumulator of the main loop is a pure prefix: running with any
accumulator appends the run from the empty accumulator. -/
theorem mainLoop_acc_eq :
    ∀ (samples : List (SampleRow × TargetOutcome × JudgeCall))
      (acc : List LabeledRecord),
    mainLoop samples acc = acc ++ mainLoop samples [] := by
  intro samples
  induction samples with
  | nil => intro acc; simp [mainLoop]
  | cons s rest ih =>
    intro acc
    obtain ⟨row, t, j⟩ := s
    simp only [mainLoop]
    rw [ih (acc ++ [processRow t j row]), ih ([] ++ [processRow t j row])]
    simp

/-- The batch emits the record of the first sample and then the batch of
the remaining samples. -/
theorem runPipeline_cons (row : SampleRow) (t : TargetOutcome) (j : JudgeCall)
    (rest : List (SampleRow × TargetOutcome × JudgeCall)) :
    runPipeline ((row, t, j) :: rest) = processRow t j row :: runPipeline rest := by
  unfold runPipeline
  simp only [mainLoop]
  rw [mainLoop_acc_eq rest ([] ++ [processRow t j row])]
  simp

/-- The batch emits exactly one record per sample. -/
theorem runPipeline_length (samples : List (SampleRow × TargetOutcome × JudgeCall)) :
    (runPipeline samples).length = samples.length := by
  induction samples with
  | nil => rfl
  | cons s rest ih =>
    obtain ⟨row, t, j⟩ := s
    rw [runPipeline_cons]
    simp [ih]

/-- The fuel-indexed shuffle of a list whose length fits in the fuel is a
permutation of that list. -/
theorem shuffleGo_perm {α : Type} :
    ∀ (fuel s : Nat) (l : List α), l.length ≤ fuel → (shuffleGo fuel s l).Perm l := by
  intro fuel
  induction fuel with
  | zero =>
    intro s l h
    have hl : l = [] := List.eq_nil_of_length_eq_zero (Nat.le_zero.mp h)
    subst hl
    simp [shuffleGo]
  | succ n ih =>
    intro s l h
    cases l with
    | nil => simp [shuffleGo]
    | cons a t =>
      have hrot := List.rotate_perm (a :: t) (s % (a :: t).length)
      cases hrotEq : (a :: t).rotate (s % (a :: t).length) with
      | nil =>
        rw [hrotEq] at hrot
        exact absurd hrot.symm.eq_nil (List.cons_ne_nil a t)
      | cons b u =>
        rw [hrotEq] at hrot
        have hlen : u.length ≤ n := by
          have hl := hrot.length_eq
          simp only [List.length_cons] at hl h
          omega
        have hunfold : shuffleGo (n + 1) s (a :: t) = b :: shuffleGo n (lcg s) u := by
          simp only [shuffleGo, hrotEq]
        rw [hunfold]
        exact ((ih (lcg s) u hlen).cons b).trans hrot

/-- The seeded shuffle is a permutation of its input. -/
theorem seededShuffle_perm {α : Type} (s : Nat) (l : List α) :
    (seededShuffle s l).Perm l :=
  shuffleGo_perm l.length s l (le_refl _)

/-- The sampler returns min of the requested count and the filtered source
size. -/
theorem load_length (n : Nat) (ds : SourceDF) :
    (load_financeqa_sample n ds).length = min n (filteredRows ds).length := by
  simp only [load_financeqa_sample]
  split
  next h =>
    rw [(seededShuffle_perm 42 (filteredRows ds)).length_eq]
    omega
  next h =>
    rw [List.length_take, (seededShuffle_perm 42 (filteredRows ds)).length_eq]

/-- When the filtered source fits in the requested count, the sample is a
permutation of the whole filtered source. -/
theorem load_perm_of_le (n : Nat) (ds : SourceDF)
    (h : (filteredRows ds).length ≤ n) :
    (load_financeqa_sample n ds).Perm (filteredRows ds) := by
  simp only [load_financeqa_sample]
  rw [if_pos h]
  exact seededShuffle_perm 42 (filteredRows ds)

/-- Every sampled record comes from the filtered source. -/
theorem load_subset (n : Nat) (ds : SourceDF) :
    ∀ r, r ∈ load_financeqa_sample n ds → r ∈ filteredRows ds := by
  intro r hr
  simp only [load_financeqa_sample] at hr
  by_cases h : (filteredRows ds).length ≤ n
  · rw [if_pos h] at hr
    exact ((seededShuffle_perm 42 (filteredRows ds)).mem_iff).mp hr
  · rw [if_neg h] at hr
    exact ((seededShuffle_perm 42 (filteredRows ds)).mem_iff).mp
      (List.take_subset n (seededShuffle 42 (filteredRows ds)) hr)

/-- An empty source yields an empty sample. -/
theorem load_empty (n : Nat) (ds : SourceDF) (h : ds.rows = []) :
    load_financeqa_sample n ds = [] := by
  have hf : filteredRows ds = [] := by
    simp only [filteredRows, h]
    split <;> simp
  simp [load_financeqa_sample, hf, seededShuffle, shuffleGo]

/-- The scan over the candidate labels returns a label whose count bounds
the count of the starting candidate and of every scanned candidate. -/
theorem pickMost_le (labels : List String) :
    ∀ (cs : List String) (best : String),
    countLabel labels best ≤ countLabel labels (pickMost labels best cs) ∧
    ∀ c ∈ cs, countLabel labels c ≤ countLabel labels (pickMost labels best cs) := by
  intro cs
  induction cs with
  | nil =>
    intro best
    exact ⟨le_refl _, by simp⟩
  | cons c cs ih =>
    intro best
    simp only [pickMost]
    split
    next h =>
      refine ⟨le_trans (le_of_lt h) (ih c).1, ?_⟩
      intro d hd
      rcases List.mem_cons.mp hd with rfl | hd2
      · exact (ih d).1
      · exact (ih c).2 d hd2
    next h =>
      refine ⟨(ih best).1, ?_⟩
      intro d hd
      rcases List.mem_cons.mp hd with rfl | hd2
      · exact le_trans (Nat.le_of_not_lt h) (ih best).1
      · exact (ih best).2 d hd2

/-- The scan over the candidate labels returns one of the candidates. -/
theorem pickMost_mem (labels : List String) :
    ∀ (cs : List String) (best : String), pickMost labels best cs ∈ best :: cs := by
  intro cs
  induction cs with
  | nil =>
    intro best
    simp [pickMost]
  | cons c cs ih =>
    intro best
    simp only [pickMost]
    split
    · exact List.mem_cons_of_mem best (ih c)
    · rcases List.mem_cons.mp (ih best) with h | h
      · rw [h]
        exact List.mem_cons_self _ _
      · exact List.mem_cons_of_mem best (List.mem_cons_of_mem c h)

/-- The most-common-error metric has maximal count among the non-CORRECT
labels of the table. -/
theorem most_common_maximal (labels : List String) (l : String)
    (hl : l ∈ labels) (hne : l ≠ "CORRECT") :
    countLabel labels l ≤ countLabel labels (most_common labels) := by
  have hmem : l ∈ (labels.dedup).filter (fun s => decide (s ≠ "CORRECT")) := by
    rw [List.mem_filter]
    exact ⟨List.mem_dedup.mpr hl, by simp [hne]⟩
  unfold most_common
  split
  next heq =>
    rw [heq] at hmem
    cases hmem
  next c cs heq =>
    rw [heq] at hmem
    rcases List.mem_cons.mp hmem with rfl | h
    · exact (pickMost_le labels cs l).1
    · exact (pickMost_le labels cs c).2 l h

/-- When some non-CORRECT label occurs, the most-common-error metric never
reports CORRECT: CORRECT is excluded from contention. -/
theorem most_common_ne_correct (labels : List String)
    (hex : ∃ l, l ∈ labels ∧ l ≠ "CORRECT") :
    most_common labels ≠ "CORRECT" := by
  obtain ⟨l, hl, hne⟩ := hex
  have hmem : l ∈ (labels.dedup).filter (fun s => decide (s ≠ "CORRECT")) := by
    rw [List.mem_filter]
    exact ⟨List.mem_dedup.mpr hl, by simp [hne]⟩
  unfold most_common
  split
  next heq =>
    rw [heq] at hmem
    cases hmem
  next c cs heq =>
    have hpm := pickMost_mem labels cs c
    rw [← heq] at hpm
    have hpred := (List.mem_filter.mp hpm).2
    simpa using hpred

/-- When every label of the table is CORRECT, the non-CORRECT slice of the
counts is empty and the metric falls back to CORRECT. -/
theorem most_common_all_correct (labels : List String)
    (hall : ∀ l ∈ labels, l = "CORRECT") :
    most_common labels = "CORRECT" := by
  have hf : (labels.dedup).filter (fun s => decide (s ≠ "CORRECT")) = [] := by
    rw [List.filter_eq_nil_iff]
    intro a ha
    have ha2 : a = "CORRECT" := hall a (List.mem_dedup.mp ha)
    simp [ha2]
  unfold most_common
  rw [hf]

/-- One viewer click keeps the index inside the valid range. -/
theorem navStep_bounds (r : Nat) (idx : Int)
    (hlo : 0 ≤ idx) (hhi : idx ≤ (r : Int) - 1) (a : NavAction) :
    0 ≤ navStep r idx a ∧ navStep r idx a ≤ (r : Int) - 1 := by
  cases a <;> simp only [navStep] <;> split <;> omega

/-- Folding any click sequence from an in-range index stays in range. -/
theorem navFold_bounds (r : Nat) :
    ∀ (acts : List NavAction) (idx : Int), 0 ≤ idx → idx ≤ (r : Int) - 1 →
    0 ≤ acts.foldl (navStep r) idx ∧ acts.foldl (navStep r) idx ≤ (r : Int) - 1 := by
  intro acts
  induction acts with
  | nil =>
    intro idx hlo hhi
    exact ⟨hlo, hhi⟩
  | cons a acts ih =>
    intro idx hlo hhi
    simp only [List.foldl_cons]
    obtain ⟨h1, h2⟩ := navStep_bounds r idx hlo hhi a
    exact ih (navStep r idx a) h1 h2

/-! ### Claims about the labeling pipeline -/

/-- Claim C1: every labeled output record carries an `error_label` in the
closed label set or the UNKNOWN sentinel; in particular a judge-returned
label FOO outside the set is stored as UNKNOWN. -/
theorem c1_error_label_in_closed_set :
    ∀ (t : TargetOutcome) (j : JudgeCall) (row : SampleRow),
    (processRow t j row).error_label ∈ "UNKNOWN" :: ERROR_LABELS ∧
    ∀ rat : Option String,
      (label_failure (JudgeOutcome.parsed (some "FOO") rat)).1 = "UNKNOWN" := by
  intro t j row
  constructor
  · show (judgeResult j).1 ∈ "UNKNOWN" :: ERROR_LABELS
    cases j with
    | completes o => exact coerceLabel_fst_mem (rawJudge o)
    | raises msg => exact List.mem_cons_self _ _
  · intro rat
    simp [label_failure, rawJudge, coerceLabel, ERROR_LABELS]

/-- Claim C2: the batch produces exactly one output record per sampled
input record, in particular also when the target call and the judge call
raise on every sample. -/
theorem c2_output_count_eq_input_count :
    (∀ samples : List (SampleRow × TargetOutcome × JudgeCall),
      (runPipeline samples).length = samples.length) ∧
    ∀ (rows : List SampleRow) (tmsg jmsg : String),
      (runPipeline (rows.map
        (fun row => (row, TargetOutcome.raises tmsg, JudgeCall.raises jmsg)))).length
        = rows.length := by
  refine ⟨runPipeline_length, ?_⟩
  intro rows tmsg jmsg
  rw [runPipeline_length]
  simp

/-- Counterexample to claim C3 as stated: a judge call that raises an
exception whose string form is empty yields the UNKNOWN label but an EMPTY
stored rationale, so the rationale is not always a non-empty string. -/
theorem c3_counterexample_empty_rationale :
    (processRow (TargetOutcome.ok "42")
      (JudgeCall.completes (JudgeOutcome.raises "")) sampleRow1).error_label = "UNKNOWN" ∧
    ¬ ((processRow (TargetOutcome.ok "42")
      (JudgeCall.completes (JudgeOutcome.raises "")) sampleRow1).error_rationale ≠ "") := by
  constructor
  · rfl
  · intro h
    exact h rfl

/-- Claim C3 (amended): when the judge call raises, the stored label is
UNKNOWN and the stored rationale is the exception text (for a JSON decode
error it carries a fixed non-empty diagnostic); the rationale is non-empty
whenever the exception text is non-empty. -/
theorem c3_amended_judge_exception_unknown_label :
    ∀ (t : TargetOutcome) (row : SampleRow) (msg : String),
    ((processRow t (JudgeCall.completes (JudgeOutcome.raises msg)) row).error_label = "UNKNOWN" ∧
     (processRow t (JudgeCall.completes (JudgeOutcome.raises msg)) row).error_rationale = msg) ∧
    ((processRow t (JudgeCall.raises msg) row).error_label = "UNKNOWN" ∧
     (processRow t (JudgeCall.raises msg) row).error_rationale = msg) ∧
    ((processRow t (JudgeCall.completes (JudgeOutcome.jsonError msg)) row).error_label = "UNKNOWN" ∧
     (processRow t (JudgeCall.completes (JudgeOutcome.jsonError msg)) row).error_rationale
       = "JSON decode error: " ++ msg) ∧
    (msg ≠ "" →
     (processRow t (JudgeCall.completes (JudgeOutcome.raises msg)) row).error_rationale ≠ "") := by
  intro t row msg
  refine ⟨⟨?_, rfl⟩, ⟨rfl, rfl⟩, ⟨?_, rfl⟩, ?_⟩
  · simp [processRow, judgeResult, label_failure, rawJudge, coerceLabel, ERROR_LABELS]
  · simp [processRow, judgeResult, label_failure, rawJudge, coerceLabel, ERROR_LABELS]
  · intro hmsg
    exact hmsg

/-- Witness for the amended claim C3 at a concrete raising judge call. -/
theorem c3_amended_witness :
    (processRow (TargetOutcome.ok "42")
      (JudgeCall.completes (JudgeOutcome.raises "boom")) sampleRow1).error_rationale ≠ "" :=
  (c3_amended_judge_exception_unknown_label (TargetOutcome.ok "42") sampleRow1 "boom").2.2.2
    (by decide)

/-- Claim C7: when the target call raises, the error is absorbed locally:
the stored model answer is the empty string, the judge outcome is still
consulted for the label, and the remaining samples are still processed. -/
theorem c7_target_failure_substitutes_empty_answer :
    ∀ (msg : String) (j : JudgeCall) (row : SampleRow)
      (rest : List (SampleRow × TargetOutcome × JudgeCall)),
    (processRow (TargetOutcome.raises msg) j row).model_answer = "" ∧
    (processRow (TargetOutcome.raises msg) j row).error_label = (judgeResult j).1 ∧
    runPipeline ((row, TargetOutcome.raises msg, j) :: rest) =
      processRow (TargetOutcome.raises msg) j row :: runPipeline rest := by
  intro msg j row rest
  exact ⟨rfl, rfl, runPipeline_cons row (TargetOutcome.raises msg) j rest⟩

/-! ### Claims about the sampler -/

/-- A concrete row of a category outside the allowed set. -/
def rowOther : SampleRow :=
  ⟨"Other question", "ans", "ctx", "other", "CO", "lnk", "fl"⟩

/-- A concrete two-row source with the question_type column present. -/
def dsTwo : SourceDF := ⟨true, [sampleRow1, rowOther]⟩

/-- A concrete empty source. -/
def dsEmpty : SourceDF := ⟨true, []⟩

/-- Claim C4: the sampler returns exactly min of the target count and the
filtered source size; a filtered source smaller than the target count is
returned whole as a permutation (shuffled, without replacement); an empty
source yields empty output. -/
theorem c4_sampler_cardinality :
    ∀ (n : Nat) (ds : SourceDF),
    (load_financeqa_sample n ds).length = min n (filteredRows ds).length ∧
    ((filteredRows ds).length < n →
      (load_financeqa_sample n ds).Perm (filteredRows ds)) ∧
    (ds.rows = [] → load_financeqa_sample n ds = []) := by
  intro n ds
  exact ⟨load_length n ds,
    fun h => load_perm_of_le n ds (le_of_lt h),
    fun h => load_empty n ds h⟩

/-- Witness for claim C4: a two-row source sampled with target count 5 is
returned whole as a permutation, and the empty source yields empty
output. -/
theorem c4_sampler_cardinality_witness :
    (load_financeqa_sample 5 dsTwo).Perm (filteredRows dsTwo) ∧
    load_financeqa_sample 5 dsEmpty = [] :=
  ⟨(c4_sampler_cardinality 5 dsTwo).2.1 (by decide),
   (c4_sampler_cardinality 5 dsEmpty).2.2 rfl⟩

/-- Claim C10: when the source lacks the question_type column the category
filter is skipped and the sample is drawn from all records; the filter to
basic/assumption applies only when the column is present. -/
theorem c10_missing_column_skips_filter :
    ∀ (n : Nat) (rows : List SampleRow),
    filteredRows ⟨false, rows⟩ = rows ∧
    (load_financeqa_sample n ⟨false, rows⟩).length = min n rows.length ∧
    (∀ r, r ∈ load_financeqa_sample n ⟨false, rows⟩ → r ∈ rows) ∧
    filteredRows ⟨true, rows⟩ =
      rows.filter (fun r => allowedTypes.contains r.question_type) := by
  intro n rows
  have hf : filteredRows ⟨false, rows⟩ = rows := by simp [filteredRows]
  refine ⟨hf, ?_, ?_, by simp [filteredRows]⟩
  · rw [load_length n ⟨false, rows⟩, hf]
  · intro r hr
    have hmem := load_subset n ⟨false, rows⟩ r hr
    rwa [hf] at hmem

/-- Witness for claim C10: with the column absent, a record of category
"other" is sampled and indeed comes from the source rows. -/
theorem c10_missing_column_skips_filter_witness :
    rowOther ∈ [sampleRow1, rowOther] :=
  (c10_missing_column_skips_filter 5 [sampleRow1, rowOther]).2.2.1 rowOther (by decide)

/-! ### Claims about the viewer -/

/-- The concrete table of the C5 example: 5 arithmetic errors, 2 wrong
metric, 20 correct. -/
def exampleTable : List String :=
  List.replicate 5 "ARITHMETIC_ERROR" ++
    List.replicate 2 "WRONG_METRIC_OR_CONCEPT" ++
    List.replicate 20 "CORRECT"

/-- The concrete table of the C6 example: 10 rows, 6 of them CORRECT. -/
def tenRowTable : List String :=
  List.replicate 6 "CORRECT" ++
    ["ARITHMETIC_ERROR", "UNKNOWN", "ARITHMETIC_ERROR", "NON_ANSWER_OR_GENERIC"]

/-- Claim C5: the most-common-error metric reports a maximal-count label
among the non-CORRECT labels, never CORRECT while a non-CORRECT label
occurs, and on the example counts it reports ARITHMETIC_ERROR. -/
theorem c5_most_common_error_metric :
    (∀ (labels : List String) (l : String), l ∈ labels → l ≠ "CORRECT" →
      countLabel labels l ≤ countLabel labels (most_common labels)) ∧
    (∀ labels : List String, (∃ l, l ∈ labels ∧ l ≠ "CORRECT") →
      most_common labels ≠ "CORRECT") ∧
    most_common exampleTable = "ARITHMETIC_ERROR" := by
  refine ⟨?_, ?_, by decide⟩
  · intro labels l hl hne
    exact most_common_maximal labels l hl hne
  · intro labels hex
    exact most_common_ne_correct labels hex

/-- Witness for claim C5 on a concrete two-label table. -/
theorem c5_most_common_error_metric_witness :
    countLabel ["ARITHMETIC_ERROR", "CORRECT"] "ARITHMETIC_ERROR" ≤
      countLabel ["ARITHMETIC_ERROR", "CORRECT"]
        (most_common ["ARITHMETIC_ERROR", "CORRECT"]) ∧
    most_common ["ARITHMETIC_ERROR", "CORRECT"] ≠ "CORRECT" :=
  ⟨c5_most_common_error_metric.1 ["ARITHMETIC_ERROR", "CORRECT"] "ARITHMETIC_ERROR"
      (by decide) (by decide),
   c5_most_common_error_metric.2.1 ["ARITHMETIC_ERROR", "CORRECT"]
      ⟨"ARITHMETIC_ERROR", by decide, by decide⟩⟩

/-- Claim C6: on a non-empty table the accuracy metric is the CORRECT
count divided by the row count, and on the 10-row example with 6 CORRECT
rows it is 0.6. -/
theorem c6_accuracy_metric :
    (∀ labels : List String, labels ≠ [] →
      accuracy labels = (countLabel labels "CORRECT" : ℚ) / (labels.length : ℚ)) ∧
    accuracy tenRowTable = 3 / 5 := by
  constructor
  · intro labels hne
    have h : ¬ labels.length = 0 := by
      simpa [List.length_eq_zero] using hne
    simp [accuracy, h]
  · have hl : tenRowTable.length = 10 := by decide
    have hc : countLabel tenRowTable "CORRECT" = 6 := by decide
    simp only [accuracy, hl, hc]
    norm_num

/-- Witness for claim C6 on a concrete one-row table. -/
theorem c6_accuracy_metric_witness :
    accuracy ["CORRECT"] =
      (countLabel ["CORRECT"] "CORRECT" : ℚ) / ((["CORRECT"] : List String).length : ℚ) :=
  c6_accuracy_metric.1 ["CORRECT"] (by decide)

/-- Claim C9: on a non-empty table whose every label is CORRECT the
most-common-error metric reports CORRECT rather than failing. -/
theorem c9_all_correct_reports_correct :
    ∀ labels : List String, labels ≠ [] → (∀ l ∈ labels, l = "CORRECT") →
    most_common labels = "CORRECT" := by
  intro labels _ hall
  exact most_common_all_correct labels hall

/-- Witness for claim C9 on the concrete all-CORRECT table. -/
theorem c9_all_correct_reports_correct_witness :
    most_common ["CORRECT", "CORRECT"] = "CORRECT" :=
  c9_all_correct_reports_correct ["CORRECT", "CORRECT"] (by decide) (by decide)

/-- Claim C8: on a table with at least one row, any sequence of viewer
clicks keeps the session index within 0 and the row count minus one. -/
theorem c8_nav_index_clamped :
    ∀ (r : Nat) (acts : List NavAction), 1 ≤ r →
    0 ≤ navRun r acts ∧ navRun r acts ≤ (r : Int) - 1 := by
  intro r acts hr
  exact navFold_bounds r acts 0 (le_refl 0) (by omega)

/-- Witness for claim C8: clicking Previous at 0 and then Next twice on a
two-row table stays in range. -/
theorem c8_nav_index_clamped_witness :
    0 ≤ navRun 2 [NavAction.prev, NavAction.next, NavAction.next] ∧
    navRun 2 [NavAction.prev, NavAction.next, NavAction.next] ≤ ((2 : Nat) : Int) - 1 :=
  c8_nav_index_clamped 2 [NavAction.prev, NavAction.next, NavAction.next] (by decide)

end FinanceQA
